import Mathlib

/-!
# Verification of the KCET rank-prediction module

Shallow embedding of `src/lib/college-service.ts` (the rank-estimator core:
`kcet2025RankTable`, `predictKCETRank`, `getRankBand`, `getCompetitionLevel`,
`calculatePercentile`, `getCollegeSuggestions`) in Lean 4, with theorems
checking the specification's claims about it.

JavaScript numbers are modelled as exact rationals plus an explicit NaN
value (`JSNum`).  `Math.round x` is `⌊x + 1/2⌋` (JavaScript rounds halves
toward +∞), and `toFixed` rounds the magnitude half away from zero, as the
ECMAScript specification prescribes.
-/

namespace KCET

/-- A JavaScript number: an exact rational or NaN. -/
inductive JSNum where
  | num : ℚ → JSNum
  | nan : JSNum
deriving DecidableEq, Repr

/-- JavaScript `Math.round`: `⌊x + 1/2⌋` (halves round toward +∞).
Written with the executable `Rat.floor` so that concrete calls reduce. -/
def jsRound (q : ℚ) : ℤ := (q + 1/2).floor

/-- One entry of the calibration table: `{ score, rank }`. -/
structure CalibPoint where
  score : ℚ
  rank : ℤ
deriving DecidableEq, Repr

instance : Inhabited CalibPoint := ⟨⟨0, 0⟩⟩

/-- The embedded calibration table `kcet2025RankTable` from the source,
ordered by descending score. -/
def kcet2025RankTable : List CalibPoint :=
  [⟨9622/100, 81⟩, ⟨9406/100, 308⟩, ⟨90, 1245⟩, ⟨85, 3804⟩, ⟨80, 8500⟩,
   ⟨75, 16000⟩, ⟨70, 30000⟩, ⟨65, 50000⟩, ⟨60, 80000⟩,
   ⟨50, 155000⟩, ⟨40, 235000⟩, ⟨35, 259000⟩]

/-- The result record `RankPrediction`. -/
structure RankPrediction where
  low : ℤ
  medium : ℤ
  high : ℤ
  composite : ℚ
  percentile : String
  rankBand : String
  competitionLevel : String
deriving DecidableEq, Repr

/-- Embedding of `getRankBand` from the source: first-match-wins threshold ladder on a rank. -/
def getRankBand (rank : ℤ) : String :=
  if rank ≤ 200 then "Elite"
  else if rank ≤ 1200 then "Excellent"
  else if rank ≤ 3000 then "Very Good"
  else if rank ≤ 8000 then "Good"
  else if rank ≤ 16000 then "Above Average"
  else if rank ≤ 30000 then "Average"
  else if rank ≤ 50000 then "Below Average"
  else if rank ≤ 80000 then "Lower"
  else if rank ≤ 155000 then "Poor"
  else "Very Poor"

/-- Embedding of `getCompetitionLevel` from the source: threshold ladder on the composite score. -/
def getCompetitionLevel (score : ℚ) : String :=
  if 95 ≤ score then "Extremely High"
  else if 90 ≤ score then "Very High"
  else if 85 ≤ score then "High"
  else if 80 ≤ score then "Moderately High"
  else if 75 ≤ score then "Moderate"
  else if 70 ≤ score then "Moderately Low"
  else if 60 ≤ score then "Low"
  else "Very Low"

/-- ECMAScript `toFixed(2)` on an exact rational: sign, then the magnitude
rounded to hundredths with halves rounded up, printed with two decimals. -/
def ratToFixed2 (q : ℚ) : String :=
  let sign := if q < 0 then "-" else ""
  let m : ℤ := (|q| * 100 + 1/2).floor
  sign ++ toString (m / 100) ++ "." ++
    (if m % 100 < 10 then "0" else "") ++ toString (m % 100)

/-- Embedding of `calculatePercentile` from the source:
`((260000 - rank) / 260000 * 100).toFixed(2) + "%"`. -/
def calculatePercentile (rank : ℤ) : String :=
  ratToFixed2 (((260000 : ℚ) - rank) / 260000 * 100) ++ "%"

/-- The combined (composite) score computed by `predictKCETRank`:
`0.6 * (cet / 180 * 100) + 0.4 * puc`; NaN inputs propagate. -/
def combinedScore (cet puc : JSNum) : JSNum :=
  match cet, puc with
  | .num c, .num p => .num (6/10 * (c / 180 * 100) + 4/10 * p)
  | _, _ => .nan

/-- Linear interpolation between calibration points `c` (current) and `n`
(next), exactly as in the loop body of `predictKCETRank`:
`current.rank + (scoreOffset / scoreDiff) * rankDiff`. -/
def interpAt (c n : CalibPoint) (s : ℚ) : ℚ :=
  c.rank + (c.score - s) / (c.score - n.score) * ((n.rank : ℚ) - c.rank)

/-- The interpolation scan of `predictKCETRank`: walk adjacent pairs of the
table and return the interpolated (unrounded) rank for the first pair
`(current, next)` with `next.score ≤ s ≤ current.score`. -/
def interpScan : List CalibPoint → ℚ → Option ℚ
  | c :: n :: rest, s =>
      if s ≤ c.score ∧ n.score ≤ s then some (interpAt c n s)
      else interpScan (n :: rest) s
  | _, _ => none

/-- The calibration-table invariant, executable: adjacent entries strictly
decrease in score and strictly increase in rank. -/
def sortedDescB : List CalibPoint → Bool
  | c :: n :: rest =>
      (decide (n.score < c.score) && decide (c.rank < n.rank)) && sortedDescB (n :: rest)
  | _ => true

/-- The nearest-neighbour scan of the fallback branch: fold over the table
keeping the entry with the strictly smallest `|s - score|`. -/
def closestScan (s : ℚ) : List CalibPoint → CalibPoint → ℚ → CalibPoint
  | [], best, _ => best
  | p :: rest, best, minDiff =>
      if |s - p.score| < minDiff then closestScan s rest p (|s - p.score|)
      else closestScan s rest best minDiff

/-- The `closest` computation of the fallback branch: start from `table[0]`, scan the rest. -/
def fallbackPoint (t : List CalibPoint) (s : ℚ) : CalibPoint :=
  match t with
  | [] => default
  | c :: rest => closestScan s rest c (|s - c.score|)

/-- Build the result record of the interpolation (and fallback) branches:
`medium = round r`, `low = round (medium * 0.95)`, `high = round (medium * 1.05)`,
with the derived labels. -/
def mkScanResult (s r : ℚ) : RankPrediction :=
  let medium := jsRound r
  { low := jsRound ((medium : ℚ) * (95/100))
    medium := medium
    high := jsRound ((medium : ℚ) * (105/100))
    composite := s
    percentile := calculatePercentile medium
    rankBand := getRankBand medium
    competitionLevel := getCompetitionLevel s }

/-- The error message thrown by `predictKCETRank` on invalid input. -/
def errMsg : String := "Please enter valid marks (KCET: 0-180, PUC: 0-100)"

/-- The entry `table[0]` — the top calibration entry. -/
def tableTop : CalibPoint := kcet2025RankTable.headI

/-- The entry `table[table.length - 1]` — the bottom calibration entry. -/
def tableBottom : CalibPoint := (kcet2025RankTable.getLast?).getD default

/-- Embedding of `predictKCETRank` from the source.  Throwing is modelled with `Except`:
NaN or out-of-[0,100] composite is `error`, everything else `ok`. -/
def predictKCETRank (cet puc : JSNum) : Except String RankPrediction :=
  match combinedScore cet puc with
  | .nan => .error errMsg
  | .num s =>
    if s < 0 ∨ 100 < s then .error errMsg
    else if tableTop.score ≤ s then
      .ok { low := 1, medium := 1, high := 1, composite := s,
            percentile := "Top 0.01%", rankBand := "Elite",
            competitionLevel := "Extremely High" }
    else if s ≤ tableBottom.score then
      .ok { low := 250000, medium := 260000, high := 270000, composite := s,
            percentile := "Bottom 20%", rankBand := "Lower",
            competitionLevel := "Moderate" }
    else
      match interpScan kcet2025RankTable s with
      | some r => .ok (mkScanResult s r)
      | none => .ok (mkScanResult s ((fallbackPoint kcet2025RankTable s).rank : ℚ))

/-- A `{name, branch}` college suggestion. -/
structure Suggestion where
  name : String
  branch : String
deriving DecidableEq, Repr

/-- One row of a category suggestion table: `{rank, name, branch}`. -/
structure SuggestionEntry where
  rank : ℤ
  name : String
  branch : String
deriving DecidableEq, Repr

/-- The `general` table of `getCollegeSuggestions`. -/
def generalSuggestions : List SuggestionEntry :=
  [⟨200, "RVCE, BMSCE, IISc", "CSE, ECE, EEE"⟩,
   ⟨1200, "MSRIT, PESIT, BMSIT", "CSE, ECE, ISE"⟩,
   ⟨3000, "SIT, NMIT, DSCE", "CSE, ECE, ME"⟩,
   ⟨8000, "CIT, SJCE, UVCE", "All branches"⟩,
   ⟨16000, "Regional colleges", "All branches"⟩,
   ⟨30000, "Private colleges", "All branches"⟩]

/-- The `obc` table of `getCollegeSuggestions`. -/
def obcSuggestions : List SuggestionEntry :=
  [⟨300, "RVCE, BMSCE", "CSE, ECE"⟩,
   ⟨1500, "MSRIT, PESIT", "CSE, ECE"⟩,
   ⟨4000, "SIT, NMIT", "CSE, ECE"⟩,
   ⟨10000, "CIT, SJCE", "All branches"⟩,
   ⟨20000, "Regional colleges", "All branches"⟩,
   ⟨40000, "Private colleges", "All branches"⟩]

/-- The `sc` table of `getCollegeSuggestions`. -/
def scSuggestions : List SuggestionEntry :=
  [⟨500, "RVCE, BMSCE", "CSE, ECE"⟩,
   ⟨2000, "MSRIT, PESIT", "CSE, ECE"⟩,
   ⟨6000, "SIT, NMIT", "CSE, ECE"⟩,
   ⟨15000, "CIT, SJCE", "All branches"⟩,
   ⟨30000, "Regional colleges", "All branches"⟩,
   ⟨60000, "Private colleges", "All branches"⟩]

/-- The `st` table of `getCollegeSuggestions`. -/
def stSuggestions : List SuggestionEntry :=
  [⟨800, "RVCE, BMSCE", "CSE, ECE"⟩,
   ⟨3000, "MSRIT, PESIT", "CSE, ECE"⟩,
   ⟨8000, "SIT, NMIT", "CSE, ECE"⟩,
   ⟨20000, "CIT, SJCE", "All branches"⟩,
   ⟨40000, "Regional colleges", "All branches"⟩,
   ⟨80000, "Private colleges", "All branches"⟩]

/-- The lookup `colleges[category] || colleges.general`: select the category's table,
defaulting to `general` for any other key. -/
def suggestionTableFor (category : String) : List SuggestionEntry :=
  if category = "general" then generalSuggestions
  else if category = "obc" then obcSuggestions
  else if category = "sc" then scSuggestions
  else if category = "st" then stSuggestions
  else generalSuggestions

/-- The fallback suggestion `{ name: 'Other colleges', branch: 'All branches' }`. -/
def otherColleges : Suggestion := ⟨"Other colleges", "All branches"⟩

/-- The property keys the object literal `colleges` inherits from
`Object.prototype` in the program's runtime (Node/browsers): the seven
ECMAScript-required methods, the Annex B accessor helpers, and `__proto__`.
For these keys `colleges[category]` yields a truthy inherited value, so the
`|| colleges.general` default is NOT taken. -/
def objectPrototypeKeys : List String :=
  ["constructor", "hasOwnProperty", "isPrototypeOf", "propertyIsEnumerable",
   "toLocaleString", "toString", "valueOf", "__proto__",
   "__defineGetter__", "__defineSetter__", "__lookupGetter__", "__lookupSetter__"]

/-- Outcome of the JavaScript property access `colleges[category]`:
an own property (one of the four tables), a truthy value inherited from
`Object.prototype`, or `undefined`. -/
inductive CategoryLookup where
  | table : List SuggestionEntry → CategoryLookup
  | inherited : CategoryLookup
  | undefinedValue : CategoryLookup
deriving DecidableEq, Repr

/-- The JS property lookup `colleges[category]` with the prototype chain:
own keys first (they shadow the prototype), then the inherited
`Object.prototype` keys, everything else `undefined`. -/
def collegesLookup (category : String) : CategoryLookup :=
  if category = "general" then .table generalSuggestions
  else if category = "obc" then .table obcSuggestions
  else if category = "sc" then .table scSuggestions
  else if category = "st" then .table stSuggestions
  else if category ∈ objectPrototypeKeys then .inherited
  else .undefinedValue

/-- The message of the TypeError raised when `suggestions` is an inherited
non-array value and `.find` is called on it. -/
def typeErrorMsg : String := "TypeError: suggestions.find is not a function"

/-- The scan `suggestions.find(s => rank <= s.rank) || { name: 'Other
colleges', branch: 'All branches' }` over a given table. -/
def suggestFrom (rank : ℤ) (t : List SuggestionEntry) : Suggestion :=
  match t.find? (fun s => rank ≤ s.rank) with
  | some s => ⟨s.name, s.branch⟩
  | none => otherColleges

/-- Embedding of `getCollegeSuggestions` from the source, with the JS
object-lookup semantics: `colleges[category] || colleges.general` selects an
own table, falls back to the general table when the lookup is `undefined`,
but yields a truthy inherited value for `Object.prototype` keys, on which
`suggestions.find` throws a TypeError (modelled as `Except.error`). -/
def getCollegeSuggestions (rank : ℤ) (category : String) : Except String Suggestion :=
  match collegesLookup category with
  | .table t => .ok (suggestFrom rank t)
  | .inherited => .error typeErrorMsg
  | .undefinedValue => .ok (suggestFrom rank generalSuggestions)

/-! ## Basic lemmas about the rounding and the calibration table -/

theorem jsRound_eq_floor (q : ℚ) : jsRound q = ⌊q + 1/2⌋ := by
  rw [jsRound, Rat.floor_def', ← Rat.floor_def]

theorem jsRound_mono {a b : ℚ} (h : a ≤ b) : jsRound a ≤ jsRound b := by
  rw [jsRound_eq_floor, jsRound_eq_floor]
  exact Int.floor_le_floor (by linarith)

theorem jsRound_low_le {m : ℤ} (hm : 0 < m) : jsRound ((m : ℚ) * (95/100)) ≤ m := by
  rw [jsRound_eq_floor]
  have hm' : (1 : ℚ) ≤ (m : ℚ) := by exact_mod_cast hm
  have := Int.floor_lt.mpr
    (show (m : ℚ) * (95/100) + 1/2 < ((m + 1 : ℤ) : ℚ) by push_cast; linarith)
  omega

theorem jsRound_high_ge {m : ℤ} (hm : 0 < m) : m ≤ jsRound ((m : ℚ) * (105/100)) := by
  rw [jsRound_eq_floor]
  have hm' : (1 : ℚ) ≤ (m : ℚ) := by exact_mod_cast hm
  exact Int.le_floor.mpr (by linarith)

theorem interpScan_cons_pos {c n : CalibPoint} {rest : List CalibPoint} {s : ℚ}
    (h : s ≤ c.score ∧ n.score ≤ s) :
    interpScan (c :: n :: rest) s = some (interpAt c n s) := by
  simp only [interpScan]
  rw [if_pos h]

theorem interpScan_cons_neg {c n : CalibPoint} {rest : List CalibPoint} {s : ℚ}
    (h : ¬(s ≤ c.score ∧ n.score ≤ s)) :
    interpScan (c :: n :: rest) s = interpScan (n :: rest) s := by
  simp only [interpScan]
  rw [if_neg h]

theorem sortedDescB_cons_iff {c n : CalibPoint} {rest : List CalibPoint} :
    sortedDescB (c :: n :: rest) = true ↔
      n.score < c.score ∧ c.rank < n.rank ∧ sortedDescB (n :: rest) = true := by
  simp [sortedDescB, and_assoc]

/-- The invariant holds for the embedded table. -/
theorem table_sorted : sortedDescB kcet2025RankTable = true := by
  with_unfolding_all decide

/-- Every rank in the embedded table is at most the deepest one, `259000`. -/
theorem table_rank_ub : ∀ p ∈ kcet2025RankTable, p.rank ≤ 259000 := by decide

/-! ## Structural lemmas about the interpolation scan -/

theorem interpScan_some_le_head {c : CalibPoint} {rest : List CalibPoint} {s r : ℚ}
    (hs : sortedDescB (c :: rest) = true)
    (h : interpScan (c :: rest) s = some r) : s ≤ c.score := by
  induction rest generalizing c with
  | nil => simp [interpScan] at h
  | cons n rest ih =>
    obtain ⟨hsc, -, hs'⟩ := sortedDescB_cons_iff.mp hs
    simp only [interpScan] at h
    by_cases hcond : s ≤ c.score ∧ n.score ≤ s
    · exact hcond.1
    · rw [if_neg hcond] at h
      have := ih hs' h
      linarith

theorem interpScan_head_rank_le {t : List CalibPoint} {s r : ℚ}
    (hs : sortedDescB t = true) (h : interpScan t s = some r) :
    ∀ c, t.head? = some c → (c.rank : ℚ) ≤ r := by
  induction t with
  | nil => simp [interpScan] at h
  | cons c rest ih =>
    cases rest with
    | nil => simp [interpScan] at h
    | cons n rest' =>
      obtain ⟨hsc, hrk, hs'⟩ := sortedDescB_cons_iff.mp hs
      intro c' hc'
      have hcc : c = c' := by simpa using hc'
      subst hcc
      simp only [interpScan] at h
      by_cases hcond : s ≤ c.score ∧ n.score ≤ s
      · rw [if_pos hcond] at h
        have hr : r = interpAt c n s := (Option.some.inj h).symm
        have hd : (0:ℚ) < c.score - n.score := by linarith
        have hoff : (0:ℚ) ≤ c.score - s := by linarith [hcond.1]
        have hrd : (0:ℚ) ≤ (n.rank : ℚ) - (c.rank : ℚ) := by
          have : (c.rank : ℚ) ≤ (n.rank : ℚ) := by exact_mod_cast hrk.le
          linarith
        have hnn : (0:ℚ) ≤ (c.score - s) / (c.score - n.score) * ((n.rank : ℚ) - c.rank) :=
          mul_nonneg (div_nonneg hoff hd.le) hrd
        rw [hr, interpAt]
        linarith
      · rw [if_neg hcond] at h
        have hn : (n.rank : ℚ) ≤ r := ih hs' h n rfl
        have : (c.rank : ℚ) ≤ (n.rank : ℚ) := by exact_mod_cast hrk.le
        linarith

theorem interpScan_le_of_rank_le {t : List CalibPoint} {R : ℤ} {s r : ℚ}
    (hs : sortedDescB t = true) (hub : ∀ p ∈ t, p.rank ≤ R)
    (h : interpScan t s = some r) : r ≤ (R : ℚ) := by
  induction t with
  | nil => simp [interpScan] at h
  | cons c rest ih =>
    cases rest with
    | nil => simp [interpScan] at h
    | cons n rest' =>
      obtain ⟨hsc, hrk, hs'⟩ := sortedDescB_cons_iff.mp hs
      simp only [interpScan] at h
      by_cases hcond : s ≤ c.score ∧ n.score ≤ s
      · rw [if_pos hcond] at h
        have hr : r = interpAt c n s := (Option.some.inj h).symm
        have hd : (0:ℚ) < c.score - n.score := by linarith
        have hrd : (0:ℚ) ≤ (n.rank : ℚ) - (c.rank : ℚ) := by
          have : (c.rank : ℚ) ≤ (n.rank : ℚ) := by exact_mod_cast hrk.le
          linarith
        have hq1 : (c.score - s) / (c.score - n.score) ≤ 1 :=
          (div_le_one hd).mpr (by linarith [hcond.2])
        have hmul : (c.score - s) / (c.score - n.score) * ((n.rank : ℚ) - c.rank) ≤
            (n.rank : ℚ) - c.rank := mul_le_of_le_one_left hrd hq1
        have hnR : (n.rank : ℚ) ≤ (R : ℚ) := by
          exact_mod_cast hub n (by simp)
        rw [hr, interpAt]
        linarith
      · rw [if_neg hcond] at h
        exact ih hs' (fun p hp => hub p (List.mem_cons_of_mem _ hp)) h

theorem interpScan_anti {t : List CalibPoint} {a b ra rb : ℚ}
    (hs : sortedDescB t = true) (hab : a ≤ b)
    (ha : interpScan t a = some ra) (hb : interpScan t b = some rb) : rb ≤ ra := by
  induction t with
  | nil => simp [interpScan] at ha
  | cons c rest ih =>
    cases rest with
    | nil => simp [interpScan] at ha
    | cons n rest' =>
      obtain ⟨hsc, hrk, hs'⟩ := sortedDescB_cons_iff.mp hs
      have hrd : (0:ℚ) ≤ (n.rank : ℚ) - (c.rank : ℚ) := by
        have : (c.rank : ℚ) ≤ (n.rank : ℚ) := by exact_mod_cast hrk.le
        linarith
      simp only [interpScan] at ha hb
      by_cases hbc : b ≤ c.score ∧ n.score ≤ b
      · rw [if_pos hbc] at hb
        have hrbv : rb = interpAt c n b := (Option.some.inj hb).symm
        have hd : (0:ℚ) < c.score - n.score := by linarith
        by_cases hac : a ≤ c.score ∧ n.score ≤ a
        · rw [if_pos hac] at ha
          have hrav : ra = interpAt c n a := (Option.some.inj ha).symm
          have h1 : c.score - b ≤ c.score - a := by linarith
          have h2 : (c.score - b) / (c.score - n.score) ≤ (c.score - a) / (c.score - n.score) :=
            (div_le_div_iff_of_pos_right hd).mpr h1
          have h3 := mul_le_mul_of_nonneg_right h2 hrd
          rw [hrav, hrbv, interpAt, interpAt]
          linarith
        · rw [if_neg hac] at ha
          have hnra : (n.rank : ℚ) ≤ ra := interpScan_head_rank_le hs' ha n rfl
          have hq1 : (c.score - b) / (c.score - n.score) ≤ 1 :=
            (div_le_one hd).mpr (by linarith [hbc.2])
          have hmul : (c.score - b) / (c.score - n.score) * ((n.rank : ℚ) - c.rank) ≤
              (n.rank : ℚ) - c.rank := mul_le_of_le_one_left hrd hq1
          rw [hrbv, interpAt]
          linarith
      · rw [if_neg hbc] at hb
        have hbn : b ≤ n.score := interpScan_some_le_head hs' hb
        have hbn' : b < n.score := by
          rcases not_and_or.mp hbc with hcase | hcase
          · exact absurd (by linarith : b ≤ c.score) hcase
          · exact lt_of_not_le hcase
        have hac : ¬(a ≤ c.score ∧ n.score ≤ a) := by
          rintro ⟨-, hna⟩
          linarith
        rw [if_neg hac] at ha
        exact ih hs' ha hb

/-- Exhaustiveness of the scan over the embedded table: every composite
strictly between the lowest score 35 and the highest 96.22 is bracketed by
some adjacent pair, so the scan returns a value. -/
theorem interpScan_total {s : ℚ} (h35 : 35 < s) (h96 : s < 9622/100) :
    ∃ r, interpScan kcet2025RankTable s = some r := by
  simp only [kcet2025RankTable, interpScan]
  by_cases h1 : s ≤ 9622/100 ∧ 9406/100 ≤ s
  · rw [if_pos h1]; exact ⟨_, rfl⟩
  have e1 : s < 9406/100 := by
    rcases not_and_or.mp h1 with h | h
    · exact absurd h96.le h
    · exact lt_of_not_le h
  rw [if_neg h1]
  by_cases h2 : s ≤ 9406/100 ∧ 90 ≤ s
  · rw [if_pos h2]; exact ⟨_, rfl⟩
  have e2 : s < 90 := by
    rcases not_and_or.mp h2 with h | h
    · exact absurd e1.le h
    · exact lt_of_not_le h
  rw [if_neg h2]
  by_cases h3 : s ≤ 90 ∧ 85 ≤ s
  · rw [if_pos h3]; exact ⟨_, rfl⟩
  have e3 : s < 85 := by
    rcases not_and_or.mp h3 with h | h
    · exact absurd e2.le h
    · exact lt_of_not_le h
  rw [if_neg h3]
  by_cases h4 : s ≤ 85 ∧ 80 ≤ s
  · rw [if_pos h4]; exact ⟨_, rfl⟩
  have e4 : s < 80 := by
    rcases not_and_or.mp h4 with h | h
    · exact absurd e3.le h
    · exact lt_of_not_le h
  rw [if_neg h4]
  by_cases h5 : s ≤ 80 ∧ 75 ≤ s
  · rw [if_pos h5]; exact ⟨_, rfl⟩
  have e5 : s < 75 := by
    rcases not_and_or.mp h5 with h | h
    · exact absurd e4.le h
    · exact lt_of_not_le h
  rw [if_neg h5]
  by_cases h6 : s ≤ 75 ∧ 70 ≤ s
  · rw [if_pos h6]; exact ⟨_, rfl⟩
  have e6 : s < 70 := by
    rcases not_and_or.mp h6 with h | h
    · exact absurd e5.le h
    · exact lt_of_not_le h
  rw [if_neg h6]
  by_cases h7 : s ≤ 70 ∧ 65 ≤ s
  · rw [if_pos h7]; exact ⟨_, rfl⟩
  have e7 : s < 65 := by
    rcases not_and_or.mp h7 with h | h
    · exact absurd e6.le h
    · exact lt_of_not_le h
  rw [if_neg h7]
  by_cases h8 : s ≤ 65 ∧ 60 ≤ s
  · rw [if_pos h8]; exact ⟨_, rfl⟩
  have e8 : s < 60 := by
    rcases not_and_or.mp h8 with h | h
    · exact absurd e7.le h
    · exact lt_of_not_le h
  rw [if_neg h8]
  by_cases h9 : s ≤ 60 ∧ 50 ≤ s
  · rw [if_pos h9]; exact ⟨_, rfl⟩
  have e9 : s < 50 := by
    rcases not_and_or.mp h9 with h | h
    · exact absurd e8.le h
    · exact lt_of_not_le h
  rw [if_neg h9]
  by_cases h10 : s ≤ 50 ∧ 40 ≤ s
  · rw [if_pos h10]; exact ⟨_, rfl⟩
  have e10 : s < 40 := by
    rcases not_and_or.mp h10 with h | h
    · exact absurd e9.le h
    · exact lt_of_not_le h
  rw [if_neg h10]
  by_cases h11 : s ≤ 40 ∧ 35 ≤ s
  · rw [if_pos h11]; exact ⟨_, rfl⟩
  have e11 : s < 35 := by
    rcases not_and_or.mp h11 with h | h
    · exact absurd e10.le h
    · exact lt_of_not_le h
  exact absurd h35 (by linarith)

/-! ## Branch lemmas for the prediction function -/

theorem predict_elite {cet puc : JSNum} {s : ℚ}
    (hc : combinedScore cet puc = .num s) (h0 : 0 ≤ s) (h1 : s ≤ 100)
    (he : 9622/100 ≤ s) :
    predictKCETRank cet puc =
      .ok ⟨1, 1, 1, s, "Top 0.01%", "Elite", "Extremely High"⟩ := by
  simp only [predictKCETRank, hc]
  rw [if_neg (by push_neg; exact ⟨h0, h1⟩), if_pos (show tableTop.score ≤ s from he)]

theorem predict_bottom {cet puc : JSNum} {s : ℚ}
    (hc : combinedScore cet puc = .num s) (h0 : 0 ≤ s) (hb : s ≤ 35) :
    predictKCETRank cet puc =
      .ok ⟨250000, 260000, 270000, s, "Bottom 20%", "Lower", "Moderate"⟩ := by
  simp only [predictKCETRank, hc]
  rw [if_neg (by push_neg; exact ⟨h0, by linarith⟩),
    if_neg (show ¬ tableTop.score ≤ s from by show ¬ (9622/100 : ℚ) ≤ s; push_neg; linarith),
    if_pos (show s ≤ tableBottom.score from hb)]

theorem predict_interp {cet puc : JSNum} {s : ℚ}
    (hc : combinedScore cet puc = .num s) (h35 : 35 < s) (h96 : s < 9622/100) :
    ∃ r, interpScan kcet2025RankTable s = some r ∧
      predictKCETRank cet puc = .ok (mkScanResult s r) := by
  obtain ⟨r, hr⟩ := interpScan_total h35 h96
  refine ⟨r, hr, ?_⟩
  simp only [predictKCETRank, hc]
  rw [if_neg (by push_neg; constructor <;> linarith),
    if_neg (show ¬ tableTop.score ≤ s from by show ¬ (9622/100 : ℚ) ≤ s; push_neg; linarith),
    if_neg (show ¬ s ≤ tableBottom.score from by show ¬ s ≤ (35 : ℚ); push_neg; linarith),
    hr]

theorem medium_ge_one {cet puc : JSNum} {s : ℚ} {p : RankPrediction}
    (hc : combinedScore cet puc = .num s) (h0 : 0 ≤ s) (h1 : s ≤ 100)
    (hp : predictKCETRank cet puc = .ok p) : 1 ≤ p.medium := by
  rcases le_or_lt (9622/100 : ℚ) s with he | he
  · rw [predict_elite hc h0 h1 he] at hp
    have hv := Except.ok.inj hp
    rw [← hv]
  · rcases le_or_lt s 35 with hb | hb
    · rw [predict_bottom hc h0 hb] at hp
      have hv := Except.ok.inj hp
      rw [← hv]
      norm_num
    · obtain ⟨r, hr, heq⟩ := predict_interp hc hb he
      rw [heq] at hp
      have hv := Except.ok.inj hp
      rw [← hv]
      show 1 ≤ jsRound r
      have h81 : ((81 : ℤ) : ℚ) ≤ r := by
        simpa using interpScan_head_rank_le table_sorted hr ⟨9622/100, 81⟩ rfl
      have h81' : jsRound ((81 : ℤ) : ℚ) ≤ jsRound r := jsRound_mono h81
      have hval : jsRound ((81 : ℤ) : ℚ) = 81 := by with_unfolding_all decide
      omega

theorem medium_le_260000 {cet puc : JSNum} {s : ℚ} {p : RankPrediction}
    (hc : combinedScore cet puc = .num s) (h0 : 0 ≤ s) (h1 : s ≤ 100)
    (hp : predictKCETRank cet puc = .ok p) : p.medium ≤ 260000 := by
  rcases le_or_lt (9622/100 : ℚ) s with he | he
  · rw [predict_elite hc h0 h1 he] at hp
    have hv := Except.ok.inj hp
    rw [← hv]
    norm_num
  · rcases le_or_lt s 35 with hb | hb
    · rw [predict_bottom hc h0 hb] at hp
      have hv := Except.ok.inj hp
      rw [← hv]
    · obtain ⟨r, hr, heq⟩ := predict_interp hc hb he
      rw [heq] at hp
      have hv := Except.ok.inj hp
      rw [← hv]
      show jsRound r ≤ 260000
      have hub : r ≤ ((259000 : ℤ) : ℚ) :=
        interpScan_le_of_rank_le table_sorted table_rank_ub hr
      have h1' : jsRound r ≤ jsRound ((259000 : ℤ) : ℚ) := jsRound_mono hub
      have hval : jsRound ((259000 : ℤ) : ℚ) = 259000 := by with_unfolding_all decide
      omega

/-- First-match characterisation of `List.find?`: it returns `none` exactly
when no element satisfies the predicate, and otherwise the first satisfying
element, every element before it failing the predicate. -/
theorem find_first {α : Type} (p : α → Bool) (l : List α) :
    (l.find? p = none ∧ ∀ x ∈ l, ¬ p x = true) ∨
    (∃ a l1 l2, l.find? p = some a ∧ p a = true ∧ l = l1 ++ a :: l2 ∧
      ∀ x ∈ l1, ¬ p x = true) := by
  induction l with
  | nil => left; simp
  | cons x xs ih =>
    by_cases hx : p x = true
    · right
      exact ⟨x, [], xs, by rw [List.find?_cons_of_pos _ hx], hx, rfl, by simp⟩
    · rcases ih with ⟨h1, h2⟩ | ⟨a, l1, l2, hf, hpa, heq, hnone⟩
      · left
        refine ⟨by rw [List.find?_cons_of_neg _ hx]; exact h1, ?_⟩
        intro y hy
        rcases List.mem_cons.mp hy with rfl | hy'
        · exact hx
        · exact h2 y hy'
      · right
        refine ⟨a, x :: l1, l2, by rw [List.find?_cons_of_neg _ hx]; exact hf, hpa,
          by rw [heq]; rfl, ?_⟩
        intro y hy
        rcases List.mem_cons.mp hy with rfl | hy'
        · exact hx
        · exact hnone y hy'

/-! ## The claims -/

/-- C1: `predictKCETRank` fails (with the invalid-input error) exactly when
the composite score is NaN or outside the closed interval [0, 100]; every
input whose composite is a number in [0, 100] yields a prediction, including
out-of-range raw scores whose composite is still in range (witnessed here by
`examScore = 270 > 180`). -/
theorem predictRank_ok_iff :
    (∀ cet puc : JSNum,
      ((∃ p, predictKCETRank cet puc = .ok p) ↔
        ∃ s : ℚ, combinedScore cet puc = .num s ∧ 0 ≤ s ∧ s ≤ 100) ∧
      (¬(∃ s : ℚ, combinedScore cet puc = .num s ∧ 0 ≤ s ∧ s ≤ 100) →
        predictKCETRank cet puc = .error errMsg)) ∧
    (∃ p, predictKCETRank (.num 270) (.num 10) = .ok p) := by
  constructor
  · intro cet puc
    cases hcs : combinedScore cet puc with
    | nan =>
      constructor
      · constructor
        · rintro ⟨p, hp⟩
          simp only [predictKCETRank, hcs] at hp
          exact Except.noConfusion hp
        · rintro ⟨s, hs, -⟩
          exact JSNum.noConfusion hs
      · intro _
        simp only [predictKCETRank, hcs]
    | num s =>
      by_cases hv : s < 0 ∨ 100 < s
      · constructor
        · constructor
          · rintro ⟨p, hp⟩
            simp only [predictKCETRank, hcs] at hp
            rw [if_pos hv] at hp
            exact Except.noConfusion hp
          · rintro ⟨s', hs', h0, h1⟩
            injection hs' with h
            subst h
            rcases hv with hv | hv <;> linarith
        · intro _
          simp only [predictKCETRank, hcs]
          rw [if_pos hv]
      · have hval : ∃ s' : ℚ, JSNum.num s = JSNum.num s' ∧ 0 ≤ s' ∧ s' ≤ 100 := by
          push_neg at hv
          exact ⟨s, rfl, hv.1, hv.2⟩
        constructor
        · constructor
          · intro _
            exact hval
          · intro _
            push_neg at hv
            rcases le_or_lt (9622/100 : ℚ) s with he | he
            · exact ⟨_, predict_elite hcs hv.1 hv.2 he⟩
            · rcases le_or_lt s 35 with hb | hb
              · exact ⟨_, predict_bottom hcs hv.1 hb⟩
              · obtain ⟨r, -, heq⟩ := predict_interp hcs hb he
                exact ⟨_, heq⟩
        · intro hn
          exact absurd hval hn
  · have hcomb : combinedScore (.num 270) (.num 10) = .num 94 := by
      with_unfolding_all rfl
    obtain ⟨r, -, heq⟩ := predict_interp hcomb (by with_unfolding_all decide)
      (by with_unfolding_all decide)
    exact ⟨_, heq⟩

/-- Witness for C1: an input whose composite (120) falls outside [0, 100]
is rejected with the invalid-input error. -/
theorem predictRank_ok_iff_witness :
    predictKCETRank (.num 300) (.num 50) = .error errMsg := by
  have hcomb : combinedScore (.num 300) (.num 50) = .num 120 := by
    with_unfolding_all rfl
  refine (predictRank_ok_iff.1 (.num 300) (.num 50)).2 ?_
  rintro ⟨s, hs, -, h100⟩
  rw [hcomb] at hs
  injection hs with h
  subst h
  exact absurd h100 (by with_unfolding_all decide)

/-- C2: for two valid composites `a < b`, the medium rank predicted for `a`
is at least the medium rank predicted for `b` — a higher composite never
yields a numerically worse rank. -/
theorem predictRank_monotone (cet1 puc1 cet2 puc2 : JSNum) (a b : ℚ)
    (p1 p2 : RankPrediction)
    (ha : combinedScore cet1 puc1 = .num a) (hb : combinedScore cet2 puc2 = .num b)
    (ha0 : 0 ≤ a) (ha1 : a ≤ 100) (hb0 : 0 ≤ b) (hb1 : b ≤ 100) (hab : a < b)
    (hp1 : predictKCETRank cet1 puc1 = .ok p1)
    (hp2 : predictKCETRank cet2 puc2 = .ok p2) :
    p2.medium ≤ p1.medium := by
  rcases le_or_lt (9622/100 : ℚ) b with hbe | hbe
  · rw [predict_elite hb hb0 hb1 hbe] at hp2
    have hv := Except.ok.inj hp2
    rw [← hv]
    show (1 : ℤ) ≤ p1.medium
    exact medium_ge_one ha ha0 ha1 hp1
  · rcases le_or_lt a 35 with ha35 | ha35
    · rw [predict_bottom ha ha0 ha35] at hp1
      have hv := Except.ok.inj hp1
      rw [← hv]
      show p2.medium ≤ (260000 : ℤ)
      exact medium_le_260000 hb hb0 hb1 hp2
    · obtain ⟨ra, hra, he1⟩ := predict_interp ha ha35 (lt_trans hab hbe)
      obtain ⟨rb, hrb, he2⟩ := predict_interp hb (lt_trans ha35 hab) hbe
      rw [he1] at hp1
      rw [he2] at hp2
      have hv1 := Except.ok.inj hp1
      have hv2 := Except.ok.inj hp2
      rw [← hv1, ← hv2]
      show jsRound rb ≤ jsRound ra
      exact jsRound_mono (interpScan_anti table_sorted hab.le hra hrb)

/-- Witness for C2: composites 0 and 100 give mediums 260000 and 1. -/
theorem predictRank_monotone_witness : (1 : ℤ) ≤ (260000 : ℤ) := by
  have hc1 : combinedScore (.num 0) (.num 0) = .num 0 := by
    with_unfolding_all rfl
  have hc2 : combinedScore (.num 180) (.num 100) = .num 100 := by
    with_unfolding_all rfl
  have hp1 := predict_bottom hc1 (le_refl 0) (by with_unfolding_all decide)
  have hp2 := predict_elite hc2 (by with_unfolding_all decide) (le_refl 100)
    (by with_unfolding_all decide)
  exact predictRank_monotone (.num 0) (.num 0) (.num 180) (.num 100) 0 100 _ _
    hc1 hc2 (le_refl 0) (by with_unfolding_all decide) (by with_unfolding_all decide)
    (le_refl 100) (by with_unfolding_all decide) hp1 hp2

/-- C3: a valid composite at or above the highest calibration score 96.22
yields the fixed elite prediction `low = medium = high = 1`; a valid
composite at or below the lowest score 35 yields the fixed deep-tail
prediction `250000 / 260000 / 270000`. -/
theorem predictRank_boundaries (cet puc : JSNum) (s : ℚ)
    (hc : combinedScore cet puc = .num s) (h0 : 0 ≤ s) (h1 : s ≤ 100) :
    (9622/100 ≤ s → predictKCETRank cet puc =
      .ok ⟨1, 1, 1, s, "Top 0.01%", "Elite", "Extremely High"⟩) ∧
    (s ≤ 35 → predictKCETRank cet puc =
      .ok ⟨250000, 260000, 270000, s, "Bottom 20%", "Lower", "Moderate"⟩) :=
  ⟨fun he => predict_elite hc h0 h1 he, fun hb => predict_bottom hc h0 hb⟩

/-- Witness for C3: composite 100 hits the elite branch, composite 0 the
deep-tail branch. -/
theorem predictRank_boundaries_witness :
    predictKCETRank (.num 180) (.num 100) =
      .ok ⟨1, 1, 1, 100, "Top 0.01%", "Elite", "Extremely High"⟩ ∧
    predictKCETRank (.num 0) (.num 0) =
      .ok ⟨250000, 260000, 270000, 0, "Bottom 20%", "Lower", "Moderate"⟩ :=
  ⟨(predictRank_boundaries (.num 180) (.num 100) 100 (by with_unfolding_all rfl)
      (by with_unfolding_all decide) (le_refl 100)).1 (by with_unfolding_all decide),
   (predictRank_boundaries (.num 0) (.num 0) 0 (by with_unfolding_all rfl)
      (le_refl 0) (by with_unfolding_all decide)).2 (by with_unfolding_all decide)⟩

/-- C4 counterexample: `predictKCETRank 0 0` has `medium = 260000` as the
claim says, but its rank band is the hard-coded `"Lower"` of the deep-tail
branch, not `"Very Poor"`. -/
theorem predict_zero_zero_counterexample :
    predictKCETRank (.num 0) (.num 0) =
      .ok ⟨250000, 260000, 270000, 0, "Bottom 20%", "Lower", "Moderate"⟩ ∧
    ∀ p, predictKCETRank (.num 0) (.num 0) = .ok p → p.rankBand ≠ "Very Poor" := by
  have h : predictKCETRank (.num 0) (.num 0) =
      .ok ⟨250000, 260000, 270000, 0, "Bottom 20%", "Lower", "Moderate"⟩ := by
    with_unfolding_all rfl
  refine ⟨h, fun p hp => ?_⟩
  rw [h] at hp
  have hv := Except.ok.inj hp
  rw [← hv]
  decide

/-- C4 (amended): `predictKCETRank 0 0` yields composite 0, which is at or
below the lowest calibration score, and returns `medium = 260000` with
`rankBand = "Lower"`. -/
theorem predict_zero_zero_amended :
    combinedScore (.num 0) (.num 0) = .num 0 ∧
    predictKCETRank (.num 0) (.num 0) =
      .ok ⟨250000, 260000, 270000, 0, "Bottom 20%", "Lower", "Moderate"⟩ :=
  ⟨by with_unfolding_all rfl, by with_unfolding_all rfl⟩

/-- C5 counterexample: `predictKCETRank 162 96` has composite 92.4 and its
interpolated medium is 691, not (approximately) 714 — the claim's own
formula evaluates to about 691.1. -/
theorem predict_162_96_counterexample :
    ∃ p, predictKCETRank (.num 162) (.num 96) = .ok p ∧
      p.medium = 691 ∧ p.medium ≠ 714 := by
  have hcomb : combinedScore (.num 162) (.num 96) = .num (462/5) := by
    with_unfolding_all rfl
  obtain ⟨r, hr, heq⟩ := predict_interp hcomb (by with_unfolding_all decide)
    (by with_unfolding_all decide)
  have hscan : interpScan kcet2025RankTable (462/5) = some (140295/203) := by
    simp only [kcet2025RankTable]
    rw [interpScan_cons_neg (by norm_num), interpScan_cons_pos (by norm_num)]
    norm_num [interpAt]
  rw [hscan] at hr
  have hrv : (140295/203 : ℚ) = r := Option.some.inj hr
  rw [← hrv] at heq
  refine ⟨_, heq, ?_, ?_⟩
  · show jsRound (140295/203) = 691
    with_unfolding_all decide
  · show jsRound (140295/203) ≠ 714
    with_unfolding_all decide

/-- C5 (amended): `predictKCETRank 162 96` yields composite 92.4, which is
bracketed by the calibration points (94.06, 308) and (90.00, 1245); the
interpolated rank is 140295/203 ≈ 691.1, so `medium = 691` with
`rankBand = "Excellent"`. -/
theorem predict_162_96_amended :
    predictKCETRank (.num 162) (.num 96) =
      .ok ⟨656, 691, 726, 462/5, "99.73%", "Excellent", "Very High"⟩ ∧
    interpScan kcet2025RankTable (462/5) = some (140295/203) := by
  have hcomb : combinedScore (.num 162) (.num 96) = .num (462/5) := by
    with_unfolding_all rfl
  have hscan : interpScan kcet2025RankTable (462/5) = some (140295/203) := by
    simp only [kcet2025RankTable]
    rw [interpScan_cons_neg (by norm_num), interpScan_cons_pos (by norm_num)]
    norm_num [interpAt]
  obtain ⟨r, hr, heq⟩ := predict_interp hcomb (by with_unfolding_all decide)
    (by with_unfolding_all decide)
  rw [hscan] at hr
  have hrv : (140295/203 : ℚ) = r := Option.some.inj hr
  rw [← hrv] at heq
  have hmed : jsRound (140295/203) = 691 := by with_unfolding_all decide
  have hmk : mkScanResult (462/5) (140295/203) =
      ⟨656, 691, 726, 462/5, "99.73%", "Excellent", "Very High"⟩ := by
    simp only [mkScanResult]
    rw [hmed]
    have hl : jsRound (((691 : ℤ) : ℚ) * (95/100)) = 656 := by with_unfolding_all decide
    have hh : jsRound (((691 : ℤ) : ℚ) * (105/100)) = 726 := by with_unfolding_all decide
    have hperc : calculatePercentile 691 = "99.73%" := by with_unfolding_all decide
    have hband : getRankBand 691 = "Excellent" := by decide
    have hlev : getCompetitionLevel (462/5) = "Very High" := by with_unfolding_all decide
    rw [hl, hh, hperc, hband, hlev]
  rw [hmk] at heq
  exact ⟨heq, hscan⟩

/-- C6: every non-boundary prediction (composite strictly between 35 and
96.22) has `low = round(0.95 × medium)` and `high = round(1.05 × medium)`,
and `low ≤ medium ≤ high` whenever `medium > 0`. -/
theorem predictRank_band_consistency (cet puc : JSNum) (s : ℚ) (p : RankPrediction)
    (hc : combinedScore cet puc = .num s) (h35 : 35 < s) (h96 : s < 9622/100)
    (hp : predictKCETRank cet puc = .ok p) :
    p.low = jsRound ((p.medium : ℚ) * (95/100)) ∧
    p.high = jsRound ((p.medium : ℚ) * (105/100)) ∧
    (0 < p.medium → p.low ≤ p.medium ∧ p.medium ≤ p.high) := by
  obtain ⟨r, -, heq⟩ := predict_interp hc h35 h96
  rw [heq] at hp
  have hv := Except.ok.inj hp
  rw [← hv]
  exact ⟨rfl, rfl, fun hm => ⟨jsRound_low_le hm, jsRound_high_ge hm⟩⟩

/-- Witness for C6: the prediction at composite 50 satisfies the ±5% band
relations. -/
theorem predictRank_band_consistency_witness :
    ∃ p : RankPrediction, predictKCETRank (.num 90) (.num 50) = .ok p ∧
      p.low = jsRound ((p.medium : ℚ) * (95/100)) ∧
      p.high = jsRound ((p.medium : ℚ) * (105/100)) ∧
      (0 < p.medium → p.low ≤ p.medium ∧ p.medium ≤ p.high) := by
  have hcomb : combinedScore (.num 90) (.num 50) = .num 50 := by
    with_unfolding_all rfl
  obtain ⟨r, -, hp⟩ := predict_interp hcomb (by with_unfolding_all decide)
    (by with_unfolding_all decide)
  exact ⟨_, hp, predictRank_band_consistency (.num 90) (.num 50) 50 _
    hcomb (by with_unfolding_all decide) (by with_unfolding_all decide) hp⟩

/-- C7: the nearest-neighbour fallback of step 4 is unreachable — for every
composite strictly between the lowest (35) and highest (96.22) calibration
scores, the interpolation scan finds a bracketing adjacent pair, and the
prediction is exactly the interpolation result. -/
theorem interpolation_never_falls_back (s : ℚ) (h35 : 35 < s) (h96 : s < 9622/100) :
    ∃ r, interpScan kcet2025RankTable s = some r ∧
      ∀ cet puc, combinedScore cet puc = .num s →
        predictKCETRank cet puc = .ok (mkScanResult s r) := by
  obtain ⟨r, hr⟩ := interpScan_total h35 h96
  refine ⟨r, hr, fun cet puc hc => ?_⟩
  obtain ⟨r', hr', heq⟩ := predict_interp hc h35 h96
  rw [hr] at hr'
  have hrr : r = r' := Option.some.inj hr'
  rw [hrr]
  exact heq

/-- Witness for C7: at composite 50 the scan succeeds. -/
theorem interpolation_never_falls_back_witness :
    ∃ r, interpScan kcet2025RankTable 50 = some r ∧
      ∀ cet puc, combinedScore cet puc = .num 50 →
        predictKCETRank cet puc = .ok (mkScanResult 50 r) :=
  interpolation_never_falls_back 50 (by with_unfolding_all decide)
    (by with_unfolding_all decide)

/-- For a category that is neither an own key nor inherited from
`Object.prototype`, the call succeeds with the table `suggestionTableFor`
selects (own tables for the four known keys, else the general default). -/
theorem getCollegeSuggestions_not_proto {rank : ℤ} {category : String}
    (h : category ∉ objectPrototypeKeys) :
    getCollegeSuggestions rank category =
      .ok (suggestFrom rank (suggestionTableFor category)) := by
  simp only [getCollegeSuggestions, collegesLookup, suggestionTableFor]
  by_cases h1 : category = "general"
  · rw [if_pos h1, if_pos h1]
  · rw [if_neg h1, if_neg h1]
    by_cases h2 : category = "obc"
    · rw [if_pos h2, if_pos h2]
    · rw [if_neg h2, if_neg h2]
      by_cases h3 : category = "sc"
      · rw [if_pos h3, if_pos h3]
      · rw [if_neg h3, if_neg h3]
        by_cases h4 : category = "st"
        · rw [if_pos h4, if_pos h4]
        · rw [if_neg h4, if_neg h4, if_neg h]

/-- C8 counterexample: at the concrete input rank 500, category
`"toString"`, the lookup hits a value inherited from `Object.prototype`, so
the call raises a TypeError instead of answering from the general table — it
returns no suggestion at all. -/
theorem collegeSuggestions_toString_counterexample :
    getCollegeSuggestions 500 "toString" = .error typeErrorMsg ∧
    ¬ ∃ s : Suggestion, getCollegeSuggestions 500 "toString" = .ok s := by
  refine ⟨rfl, ?_⟩
  rintro ⟨s, hs⟩
  rw [show getCollegeSuggestions 500 "toString" = .error typeErrorMsg from rfl] at hs
  exact Except.noConfusion hs

/-- C8 (amended): for every category key inherited from `Object.prototype`
the call throws a TypeError; for every other category string it selects the
category's table (the general table for keys other than general/obc/sc/st,
without error) and returns the first entry whose threshold rank is at least
the given rank (all earlier entries lying strictly below the rank), or the
fixed fallback when the rank exceeds every threshold; at rank 500 in
category general it returns the MSRIT/PESIT/BMSIT entry. -/
theorem collegeSuggestions_spec (rank : ℤ) (category : String) :
    (category ∈ objectPrototypeKeys →
      getCollegeSuggestions rank category = .error typeErrorMsg) ∧
    (category ∉ objectPrototypeKeys →
      getCollegeSuggestions rank category =
        .ok (suggestFrom rank (suggestionTableFor category)) ∧
      (category ∉ (["general", "obc", "sc", "st"] : List String) →
        suggestionTableFor category = generalSuggestions)) ∧
    (∀ t : List SuggestionEntry,
      (∃ e l1 l2, t = l1 ++ e :: l2 ∧ rank ≤ e.rank ∧
        (∀ x ∈ l1, ¬ rank ≤ x.rank) ∧ suggestFrom rank t = ⟨e.name, e.branch⟩) ∨
      ((∀ x ∈ t, ¬ rank ≤ x.rank) ∧ suggestFrom rank t = otherColleges)) ∧
    getCollegeSuggestions 500 "general" =
      .ok ⟨"MSRIT, PESIT, BMSIT", "CSE, ECE, ISE"⟩ := by
  refine ⟨?_, ?_, ?_, rfl⟩
  · intro hmem
    simp only [objectPrototypeKeys, List.mem_cons, List.not_mem_nil, or_false] at hmem
    rcases hmem with rfl | rfl | rfl | rfl | rfl | rfl | rfl | rfl | rfl | rfl | rfl | rfl <;>
      rfl
  · intro hproto
    refine ⟨getCollegeSuggestions_not_proto hproto, fun hmem => ?_⟩
    simp only [List.mem_cons, List.mem_singleton, not_or] at hmem
    obtain ⟨h1, h2, h3, h4, -⟩ := hmem
    rw [suggestionTableFor, if_neg h1, if_neg h2, if_neg h3, if_neg h4]
  · intro t
    rcases find_first (fun e => decide (rank ≤ e.rank)) t with
      ⟨hn, hall⟩ | ⟨e, l1, l2, hf, hpe, heq, hnone⟩
    · right
      refine ⟨fun x hx => by simpa using hall x hx, ?_⟩
      simp only [suggestFrom, hn]
    · left
      refine ⟨e, l1, l2, heq, by simpa using hpe,
        fun x hx => by simpa using hnone x hx, ?_⟩
      simp only [suggestFrom, hf]

/-- Witness for C8: an inherited key errors, an unknown plain key selects
the general table, and rank 500 in category general finds the second entry. -/
theorem collegeSuggestions_spec_witness :
    getCollegeSuggestions 7 "hasOwnProperty" = .error typeErrorMsg ∧
    suggestionTableFor "xyz" = generalSuggestions ∧
    getCollegeSuggestions 500 "general" =
      .ok ⟨"MSRIT, PESIT, BMSIT", "CSE, ECE, ISE"⟩ :=
  ⟨(collegeSuggestions_spec 7 "hasOwnProperty").1 (by decide),
   ((collegeSuggestions_spec 0 "xyz").2.1 (by decide)).2 (by decide),
   (collegeSuggestions_spec 500 "general").2.2.2⟩

/-- C9: `calculatePercentile` formats `(260000 − rank) / 260000 × 100` to
two decimal places with a trailing percent sign, over the fixed pool of
260000 candidates; at rank 1000 this is "99.62%". -/
theorem calculatePercentile_spec :
    (∀ rank : ℤ, calculatePercentile rank =
      ratToFixed2 (((260000 : ℚ) - rank) / 260000 * 100) ++ "%") ∧
    calculatePercentile 1000 = "99.62%" :=
  ⟨fun _ => rfl, by with_unfolding_all decide⟩

/-- C10: every non-boundary prediction (composite strictly between 35 and
96.22) has its medium rank inside the table's extreme ranks:
`81 ≤ medium ≤ 259000`. -/
theorem predictRank_medium_bounds (cet puc : JSNum) (s : ℚ) (p : RankPrediction)
    (hc : combinedScore cet puc = .num s) (h35 : 35 < s) (h96 : s < 9622/100)
    (hp : predictKCETRank cet puc = .ok p) :
    81 ≤ p.medium ∧ p.medium ≤ 259000 := by
  obtain ⟨r, hr, heq⟩ := predict_interp hc h35 h96
  rw [heq] at hp
  have hv := Except.ok.inj hp
  rw [← hv]
  constructor
  · show (81 : ℤ) ≤ jsRound r
    have h81 : ((81 : ℤ) : ℚ) ≤ r := by
      simpa using interpScan_head_rank_le table_sorted hr ⟨9622/100, 81⟩ rfl
    have hmono := jsRound_mono h81
    have hval : jsRound ((81 : ℤ) : ℚ) = 81 := by with_unfolding_all decide
    omega
  · show jsRound r ≤ (259000 : ℤ)
    have hub : r ≤ ((259000 : ℤ) : ℚ) :=
      interpScan_le_of_rank_le table_sorted table_rank_ub hr
    have hmono := jsRound_mono hub
    have hval : jsRound ((259000 : ℤ) : ℚ) = 259000 := by with_unfolding_all decide
    omega

/-- Witness for C10: composite 80 gives medium 8500, inside [81, 259000]. -/
theorem predictRank_medium_bounds_witness :
    ∃ p : RankPrediction, predictKCETRank (.num 144) (.num 80) = .ok p ∧
      81 ≤ p.medium ∧ p.medium ≤ 259000 := by
  have hcomb : combinedScore (.num 144) (.num 80) = .num 80 := by
    with_unfolding_all rfl
  obtain ⟨r, -, hp⟩ := predict_interp hcomb (by with_unfolding_all decide)
    (by with_unfolding_all decide)
  exact ⟨_, hp, predictRank_medium_bounds (.num 144) (.num 80) 80 _
    hcomb (by with_unfolding_all decide) (by with_unfolding_all decide) hp⟩

end KCET
